import Mathlib

/-!
Shallow embedding of the finding-extraction and control-mapping core of
`src/trivy_to_nist.py`.

JSON records are modelled as structures whose `Option` fields stand for
optional JSON keys (`none` = key absent).  A bare `d[k]` dictionary access
in the source, which raises `KeyError` when the key is missing, is modelled
by `getKey`, returning `Except.error k` on a missing key; functions that
perform such accesses return `Except String _`.
-/

set_option linter.unusedVariables false

/-- One entry of the static catalog `NIST_MAPPING` (source lines 29-80). -/
structure NistControl where
  name : String
  description : String
  trivy_keywords : List String
  severity_threshold : String
deriving DecidableEq

/-- The static control catalog, verbatim from the source (lines 29-80). -/
def NIST_MAPPING : List (String × NistControl) := [
  ("SC-28", ⟨"Protection of Information at Rest", "Encrypt sensitive data at rest",
    ["crypto", "ssl", "tls", "cipher", "insecure"], "HIGH"⟩),
  ("SI-2", ⟨"Flaw Remediation", "Identify, report, and correct system flaws",
    [], "CRITICAL"⟩),
  ("SI-7", ⟨"Software, Firmware, and Information Integrity", "Employ integrity verification tools",
    ["signature", "hash", "verification", "unsigned"], "HIGH"⟩),
  ("CM-6", ⟨"Configuration Settings", "Establish and document configuration settings",
    ["config", "misconfiguration", "exposure", "debug"], "MEDIUM"⟩),
  ("IA-5", ⟨"Authenticator Management", "Manage system authenticators",
    ["password", "credential", "secret", "key"], "HIGH"⟩),
  ("AC-6", ⟨"Least Privilege", "Enforce least privilege",
    ["root", "privileged", "capability", "suid"], "HIGH"⟩),
  ("SA-8", ⟨"Security and Privacy Engineering Principles", "Apply secure design principles",
    ["insecure", "deprecated", "vulnerable"], "MEDIUM"⟩),
  ("RA-5", ⟨"Vulnerability Monitoring and Scanning", "Monitor and scan for vulnerabilities",
    [], "LOW"⟩)]

/-- The severity ordering table, verbatim from the source (line 80). -/
def SEVERITY_ORDER : List (String × Nat) :=
  [("CRITICAL", 4), ("HIGH", 3), ("MEDIUM", 2), ("LOW", 1), ("UNKNOWN", 0)]

/-- A bare dictionary access `d[k]`: `Except.error k` models the `KeyError`. -/
def getKey {α : Type} (k : String) : Option α → Except String α
  | some a => .ok a
  | none => .error k

/-- One record of a `Vulnerabilities` array, as `extract_findings` reads it. -/
structure VulnRec where
  VulnerabilityID : Option String
  Title : Option String
  Severity : Option String
  PkgName : Option String
  InstalledVersion : Option String
  FixedVersion : Option String
  Description : Option String
  References : List String
  PublishedDate : Option String
  LayerDiffID : Option String
deriving DecidableEq

/-- One record of a `Misconfigurations` array. -/
structure MisconfRec where
  ID : Option String
  Title : Option String
  Severity : Option String
  Message : Option String
  References : List String
deriving DecidableEq

/-- One record of a `Secrets` array. -/
structure SecretRec where
  RuleID : Option String
  Title : Option String
  Severity : Option String
  Match : Option String
deriving DecidableEq

/-- One block of the corpus `Results` sequence; absent arrays are `[]`,
matching `result.get(..., [])` in the source. -/
structure ResultBlock where
  Vulnerabilities : List VulnRec
  Misconfigurations : List MisconfRec
  Secrets : List SecretRec
deriving DecidableEq

/-- The normalized finding dictionary built by `extract_findings`.  `Option`
fields are dictionary keys that only some finding types carry (`none` = key
absent from the dictionary). -/
structure Finding where
  type : String
  id : String
  title : String
  severity : String
  package : Option String
  installed : Option String
  fixed : Option String
  description : String
  references : Option (List String)
  published : Option String
  layer : Option String
deriving DecidableEq

/-- Normalization of one vulnerability record (source lines 103-115). -/
def extractVuln (v : VulnRec) : Except String Finding :=
  match getKey "VulnerabilityID" v.VulnerabilityID with
  | .error e => .error e
  | .ok vid =>
    match getKey "Severity" v.Severity with
    | .error e => .error e
    | .ok sev => .ok {
        type := "vulnerability"
        id := vid
        title := v.Title.getD vid
        severity := sev
        package := some (v.PkgName.getD "N/A")
        installed := some (v.InstalledVersion.getD "N/A")
        fixed := some (v.FixedVersion.getD "No fix available")
        description := v.Description.getD ""
        references := some v.References
        published := some (v.PublishedDate.getD "")
        layer := some (v.LayerDiffID.getD "N/A") }

/-- Normalization of one misconfiguration record (source lines 118-125). -/
def extractMisconf (m : MisconfRec) : Except String Finding :=
  match getKey "ID" m.ID with
  | .error e => .error e
  | .ok mid =>
    match getKey "Severity" m.Severity with
    | .error e => .error e
    | .ok sev => .ok {
        type := "misconfiguration"
        id := mid
        title := m.Title.getD mid
        severity := sev
        package := none
        installed := none
        fixed := none
        description := m.Message.getD ""
        references := some m.References
        published := none
        layer := none }

/-- Normalization of one secret record (source lines 127-134). -/
def extractSecret (s : SecretRec) : Except String Finding :=
  match getKey "RuleID" s.RuleID with
  | .error e => .error e
  | .ok rid =>
    match getKey "Severity" s.Severity with
    | .error e => .error e
    | .ok sev => .ok {
        type := "secret"
        id := "SECRET-" ++ rid
        title := s.Title.getD ("SECRET-" ++ rid)
        severity := sev
        package := none
        installed := none
        fixed := none
        description := s.Match.getD ""
        references := none
        published := none
        layer := none }

/-- The `for vuln in result.get("Vulnerabilities", [])` loop. -/
def extractVulns : List VulnRec → Except String (List Finding)
  | [] => .ok []
  | v :: vs =>
    match extractVuln v with
    | .error e => .error e
    | .ok f =>
      match extractVulns vs with
      | .error e => .error e
      | .ok fs => .ok (f :: fs)

/-- The `for m in result.get("Misconfigurations", [])` loop. -/
def extractMisconfs : List MisconfRec → Except String (List Finding)
  | [] => .ok []
  | m :: ms =>
    match extractMisconf m with
    | .error e => .error e
    | .ok f =>
      match extractMisconfs ms with
      | .error e => .error e
      | .ok fs => .ok (f :: fs)

/-- The `for s in result.get("Secrets", [])` loop. -/
def extractSecrets : List SecretRec → Except String (List Finding)
  | [] => .ok []
  | s :: ss =>
    match extractSecret s with
    | .error e => .error e
    | .ok f =>
      match extractSecrets ss with
      | .error e => .error e
      | .ok fs => .ok (f :: fs)

/-- One iteration of the outer `for result in data.get("Results", [])` loop:
vulnerabilities, then misconfigurations, then secrets of one block. -/
def extractBlock (r : ResultBlock) : Except String (List Finding) :=
  match extractVulns r.Vulnerabilities with
  | .error e => .error e
  | .ok vs =>
    match extractMisconfs r.Misconfigurations with
    | .error e => .error e
    | .ok ms =>
      match extractSecrets r.Secrets with
      | .error e => .error e
      | .ok ss => .ok (vs ++ ms ++ ss)

/-- `extract_findings` (source lines 101-136), applied to the corpus's
`Results` sequence. -/
def extract_findings : List ResultBlock → Except String (List Finding)
  | [] => .ok []
  | r :: rs =>
    match extractBlock r with
    | .error e => .error e
    | .ok fs =>
      match extract_findings rs with
      | .error e => .error e
      | .ok gs => .ok (fs ++ gs)

/-- One parsed input document: its `Results` sequence plus its remaining
top-level keys in iteration order. -/
structure Document (β : Type) where
  results : List ResultBlock
  meta : List (String × β)
deriving DecidableEq

/-- The merged corpus dictionary: the accumulated `Results` list plus the
current value of every other top-level key. -/
structure Corpus (β : Type) where
  results : List ResultBlock
  meta : String → Option β

/-- One `merged[key] = value` assignment guarded by `if key != "Results"`
(source lines 90-92). -/
def addMetaKV {β : Type} (m : String → Option β) (kv : String × β) : String → Option β :=
  if kv.1 = "Results" then m else fun k => if k = kv.1 then some kv.2 else m k

/-- The body of the `for f in file_list` loop for one successfully parsed
document: extend `Results`, then assign every other top-level key. -/
def addDoc {β : Type} (c : Corpus β) (d : Document β) : Corpus β :=
  { results := c.results ++ d.results
    meta := d.meta.foldl addMetaKV c.meta }

/-- The initial accumulator `{"Results": []}`. -/
def emptyCorpus {β : Type} : Corpus β := { results := [], meta := fun _ => none }

/-- The merge restricted to the documents that parsed, in load order. -/
def mergeDocs {β : Type} (docs : List (Document β)) : Corpus β :=
  docs.foldl addDoc emptyCorpus

/-- `merge_jsons` (source lines 82-95).  `load` models `open` plus
`json.load`; `none` stands for `FileNotFoundError` or `JSONDecodeError`, on
which the file is skipped (a warning is printed and the loop continues). -/
def merge_jsons {γ β : Type} (load : γ → Option (Document β)) (files : List γ) : Corpus β :=
  files.foldl (fun c f => match load f with | some d => addDoc c d | none => c) emptyCorpus

/-- One result entry of an assembled HDF control (source lines 181-185). -/
structure HdfResult where
  status : String
  code_desc : String
  start_time : String
deriving DecidableEq

/-- One assembled HDF control (source lines 173-186); `severity` is the
`tags.severity` entry. -/
structure HdfControl where
  id : String
  title : String
  desc : String
  impact : ℚ
  severity : String
  results : List HdfResult
deriving DecidableEq

/-- The impact lookup `{"CRITICAL": 0.9, ...}.get(f["severity"], 0.1)`
(source line 177). -/
def impactOf (sev : String) : ℚ :=
  if sev = "CRITICAL" then 0.9
  else if sev = "HIGH" then 0.7
  else if sev = "MEDIUM" then 0.5
  else if sev = "LOW" then 0.3
  else 0.1

/-- The control built from one finding (source lines 173-186).  The
`code_desc` f-string accesses `f["package"]`, `f["installed"]` and
`f["fixed"]` with bare indexing, so a finding without those keys raises
`KeyError` — modelled as `Except.error`.  `now` is the
`datetime.utcnow().isoformat() + "Z"` timestamp. -/
def buildControl (now : String) (f : Finding) : Except String HdfControl :=
  match getKey "package" f.package with
  | .error e => .error e
  | .ok pkg =>
    match getKey "installed" f.installed with
    | .error e => .error e
    | .ok inst =>
      match getKey "fixed" f.fixed with
      | .error e => .error e
      | .ok fx => .ok {
          id := f.id
          title := f.title
          desc := f.description
          impact := impactOf f.severity
          severity := f.severity
          results := [{ status := "failed"
                        code_desc := pkg ++ " " ++ inst ++ " → " ++ fx
                        start_time := now }] }

/-- The `for f in findings` loop of `export_mitre_saf_hdf` (lines 171-187):
one control appended per finding, in finding order. -/
def buildControls (now : String) : List Finding → Except String (List HdfControl)
  | [] => .ok []
  | f :: fs =>
    match buildControl now f with
    | .error e => .error e
    | .ok c =>
      match buildControls now fs with
      | .error e => .error e
      | .ok cs => .ok (c :: cs)

/-- The control-assembly core of `export_mitre_saf_hdf` (source lines
154-198).  `catalog` mirrors the module-level `NIST_MAPPING` being in scope:
the function never reads it.  `tmplControls` is the `controls` sequence of
the loaded template profile (`[]` for the fallback profile), which the newly
built controls extend (lines 190-193). -/
def export_mitre_saf_hdf (catalog : List (String × NistControl))
    (tmplControls : List HdfControl) (now : String)
    (findings : List Finding) : Except String (List HdfControl) :=
  match buildControls now findings with
  | .error e => .error e
  | .ok cs => .ok (tmplControls ++ cs)

/-- Modelled from the spec: severity rank lookup, rank 0 when the severity
string is absent from `SEVERITY_ORDER`.  The source declares the table
(line 80) but contains no code that reads it. -/
def sevRank (s : String) : Nat := (SEVERITY_ORDER.lookup s).getD 0

/-- Lower-cased character list of a string, for case-insensitive matching
(Python `str.lower()` on the ASCII alphabet). -/
def lowerChars (s : String) : List Char := s.toList.map Char.toLower

/-- Whether the first character list is a prefix of the second. -/
def charsHasPref : List Char → List Char → Bool
  | [], _ => true
  | _ :: _, [] => false
  | a :: as, b :: bs => a = b && charsHasPref as bs

/-- Whether the first character list occurs contiguously in the second. -/
def charsHasSub (needle : List Char) : List Char → Bool
  | [] => needle.isEmpty
  | b :: bs => charsHasPref needle (b :: bs) || charsHasSub needle bs

/-- Modelled from the spec: the keyword test of the Control Mapper — the
keyword is a case-insensitive substring of the finding's title or of its
description.  The Control Mapper itself is absent from the source. -/
def keywordHit (f : Finding) (k : String) : Bool :=
  charsHasSub (lowerChars k) (lowerChars f.title) ||
  charsHasSub (lowerChars k) (lowerChars f.description)

/-- Modelled from the spec: the match relation of the Control Mapper
(severity rank at or above the control's threshold rank, AND empty keyword
set or some keyword hit).  No code in the source computes this relation:
`NIST_MAPPING` and `SEVERITY_ORDER` are declared but never read. -/
def specMatches (f : Finding) (c : NistControl) : Bool :=
  decide (sevRank c.severity_threshold ≤ sevRank f.severity) &&
  (c.trivy_keywords.isEmpty || c.trivy_keywords.any (keywordHit f))

/-- Left-biased choice on options, mirroring dictionary overwrite order. -/
def orO {β : Type} : Option β → Option β → Option β
  | some v, _ => some v
  | none, b => b

/-- The value one `key, value` pair contributes for key `k` under the
`if key != "Results"` guard. -/
def kvValue {β : Type} (k : String) (kv : String × β) : Option β :=
  if kv.1 = "Results" then none else if k = kv.1 then some kv.2 else none

/-- The value the per-document assignment loop leaves for key `k`; `none`
when the document never assigns `k`. -/
def docValue {β : Type} (k : String) (entries : List (String × β)) : Option β :=
  entries.foldl (fun acc kv => orO (kvValue k kv) acc) none

/-- The value the whole merge leaves for key `k` over a document list;
later documents override earlier ones. -/
def corpusValue {β : Type} (k : String) (docs : List (Document β)) : Option β :=
  docs.foldl (fun acc d => orO (docValue k d.meta) acc) none

theorem orO_none {β : Type} (a : Option β) : orO a none = a := by
  cases a <;> rfl

theorem orO_assoc {β : Type} (a b c : Option β) :
    orO (orO a b) c = orO a (orO b c) := by
  cases a <;> cases b <;> rfl

/-- A fold whose step is a left-biased override can be split off its seed. -/
theorem foldl_orO {σ β : Type} (g : σ → Option β) (l : List σ) (a : Option β) :
    l.foldl (fun acc x => orO (g x) acc) a =
      orO (l.foldl (fun acc x => orO (g x) acc) none) a := by
  induction l generalizing a with
  | nil => cases a <;> rfl
  | cons x xs ih =>
    simp only [List.foldl_cons]
    rw [ih (orO (g x) a), ih (orO (g x) none), orO_none, orO_assoc]

theorem docValue_cons {β : Type} (k : String) (kv : String × β) (rest : List (String × β)) :
    docValue k (kv :: rest) = orO (docValue k rest) (kvValue k kv) := by
  unfold docValue
  simp only [List.foldl_cons]
  rw [foldl_orO (fun kv => kvValue k kv) rest (orO (kvValue k kv) none), orO_none]

theorem corpusValue_cons {β : Type} (k : String) (d : Document β) (ds : List (Document β)) :
    corpusValue k (d :: ds) = orO (corpusValue k ds) (docValue k d.meta) := by
  unfold corpusValue
  simp only [List.foldl_cons]
  rw [foldl_orO (fun d => docValue k d.meta) ds (orO (docValue k d.meta) none), orO_none]

theorem addMetaKV_eq {β : Type} (m : String → Option β) (kv : String × β) (k : String) :
    addMetaKV m kv k = orO (kvValue k kv) (m k) := by
  unfold addMetaKV kvValue
  split
  · rfl
  · dsimp only
    split <;> rfl

/-- Folding one document's assignments: the document's own value for `k`
overrides the accumulator. -/
theorem foldl_addMetaKV_eq {β : Type} (entries : List (String × β))
    (m : String → Option β) (k : String) :
    (entries.foldl addMetaKV m) k = orO (docValue k entries) (m k) := by
  induction entries generalizing m with
  | nil => rfl
  | cons kv rest ih =>
    simp only [List.foldl_cons]
    rw [ih (addMetaKV m kv), addMetaKV_eq, docValue_cons, orO_assoc]

/-- Folding documents into a corpus: the documents' merged value for `k`
overrides the starting corpus. -/
theorem foldl_addDoc_meta {β : Type} (docs : List (Document β)) (c : Corpus β) (k : String) :
    (docs.foldl addDoc c).meta k = orO (corpusValue k docs) (c.meta k) := by
  induction docs generalizing c with
  | nil => rfl
  | cons d ds ih =>
    simp only [List.foldl_cons]
    rw [ih (addDoc c d)]
    show orO (corpusValue k ds) ((d.meta.foldl addMetaKV c.meta) k) = _
    rw [foldl_addMetaKV_eq, corpusValue_cons, orO_assoc]

theorem corpusValue_none {β : Type} (k : String) (docs : List (Document β))
    (h : ∀ d ∈ docs, docValue k d.meta = none) : corpusValue k docs = none := by
  induction docs with
  | nil => rfl
  | cons p ps ih =>
    rw [corpusValue_cons, h p (List.mem_cons_self p ps),
      ih (fun d hd => h d (List.mem_cons_of_mem p hd))]
    rfl

theorem foldl_addDoc_results {β : Type} (docs : List (Document β)) (c : Corpus β) :
    (docs.foldl addDoc c).results = c.results ++ (docs.map Document.results).flatten := by
  induction docs generalizing c with
  | nil => simp
  | cons d ds ih =>
    simp only [List.foldl_cons, List.map_cons, List.flatten_cons]
    rw [ih (addDoc c d)]
    show (c.results ++ d.results) ++ _ = _
    rw [List.append_assoc]

/-- Claim C5: the merged corpus's `Results` sequence is the concatenation,
in load order, of the documents' `Results` sequences, and its length is the
sum of the individual lengths. -/
theorem c5_results_concatenation {β : Type} (docs : List (Document β)) :
    (mergeDocs docs).results = (docs.map Document.results).flatten ∧
    (mergeDocs docs).results.length = (docs.map (fun d => d.results.length)).sum := by
  have h : (mergeDocs docs).results = (docs.map Document.results).flatten := by
    rw [mergeDocs, foldl_addDoc_results]
    rfl
  refine ⟨h, ?_⟩
  rw [h, List.length_flatten, List.map_map]
  rfl

/-- Claim C9: the loader never fails on a missing or unparseable file — the
merged corpus equals the merge of the successfully parsed documents only,
in load order. -/
theorem c9_bad_files_skipped {γ β : Type} (load : γ → Option (Document β))
    (files : List γ) :
    merge_jsons load files = mergeDocs (files.filterMap load) := by
  rw [merge_jsons, mergeDocs]
  generalize emptyCorpus = c
  induction files generalizing c with
  | nil => rfl
  | cons f fs ih =>
    cases h : load f with
    | none => simp only [List.foldl_cons, h, List.filterMap_cons_none h]; exact ih c
    | some d => simp only [List.foldl_cons, h, List.filterMap_cons_some h]; exact ih (addDoc c d)

/-- Claim C6: for a top-level key other than `Results`, when document `d` is
the last loaded document assigning the key, the merged corpus holds `d`'s
value for it (last-write-wins). -/
theorem c6_last_write_wins {β : Type} (pre post : List (Document β)) (d : Document β)
    (k : String) (v : β) (hk : k ≠ "Results")
    (hd : docValue k d.meta = some v)
    (hpost : ∀ d' ∈ post, docValue k d'.meta = none) :
    (mergeDocs (pre ++ d :: post)).meta k = some v := by
  rw [mergeDocs, List.foldl_append, foldl_addDoc_meta (d :: post), corpusValue_cons,
    hd, corpusValue_none k post hpost]
  rfl

/-- Witness for C6 at concrete documents. -/
def docA : Document String := ⟨[], [("ArtifactName", "imageA"), ("SchemaVersion", "2")]⟩

/-- Witness for C6: second concrete document, overriding `ArtifactName`. -/
def docB : Document String := ⟨[], [("ArtifactName", "imageB")]⟩

/-- Witness for C6: third concrete document, not touching `ArtifactName`. -/
def docC : Document String := ⟨[], [("CreatedAt", "2025")]⟩

theorem c6_last_write_wins_witness :
    ("ArtifactName" ≠ "Results") ∧
    docValue "ArtifactName" docB.meta = some "imageB" ∧
    (∀ d' ∈ [docC], docValue "ArtifactName" d'.meta = none) ∧
    (mergeDocs ([docA] ++ docB :: [docC])).meta "ArtifactName" = some "imageB" :=
  ⟨by decide, by decide, by decide,
    c6_last_write_wins [docA] [docC] docB "ArtifactName" "imageB"
      (by decide) (by decide) (by decide)⟩

/-- Claim C7: normalizing a secret record with rule identifier `r` yields a
finding with id `"SECRET-" ++ r`, title defaulting to that id when the
record has no `Title`, and description taken from the record's `Match`
field. -/
theorem c7_secret_normalization (s : SecretRec) (r sev : String)
    (hr : s.RuleID = some r) (hs : s.Severity = some sev) :
    ∃ f, extractSecret s = .ok f ∧
      f.id = "SECRET-" ++ r ∧
      (s.Title = none → f.title = "SECRET-" ++ r) ∧
      (∀ m, s.Match = some m → f.description = m) := by
  refine ⟨{ type := "secret", id := "SECRET-" ++ r,
            title := s.Title.getD ("SECRET-" ++ r), severity := sev,
            package := none, installed := none, fixed := none,
            description := s.Match.getD "", references := none,
            published := none, layer := none }, ?_, rfl, ?_, ?_⟩
  · rw [extractSecret, hr, hs]
    rfl
  · intro ht
    rw [ht]
    rfl
  · intro m hm
    rw [hm]
    rfl

/-- Concrete secret record for the C7 witness. -/
def secretAWS : SecretRec := ⟨some "AWS-001", none, some "HIGH", some "AKIAEXAMPLE"⟩

theorem c7_secret_normalization_witness :
    secretAWS.RuleID = some "AWS-001" ∧ secretAWS.Severity = some "HIGH" ∧
    ∃ f, extractSecret secretAWS = .ok f ∧
      f.id = "SECRET-" ++ "AWS-001" ∧
      (secretAWS.Title = none → f.title = "SECRET-" ++ "AWS-001") ∧
      (∀ m, secretAWS.Match = some m → f.description = m) :=
  ⟨rfl, rfl, c7_secret_normalization secretAWS "AWS-001" "HIGH" rfl rfl⟩

/-- Claim C8: a vulnerability or misconfiguration record without a `Title`
field normalizes to a finding whose title equals the record's identifier. -/
theorem c8_title_defaults_to_id (v : VulnRec) (mc : MisconfRec) (vid mid sv sm : String)
    (h1 : v.VulnerabilityID = some vid) (h2 : v.Severity = some sv) (h3 : v.Title = none)
    (h4 : mc.ID = some mid) (h5 : mc.Severity = some sm) (h6 : mc.Title = none) :
    (∃ f, extractVuln v = .ok f ∧ f.title = vid) ∧
    (∃ g, extractMisconf mc = .ok g ∧ g.title = mid) := by
  constructor
  · refine ⟨{ type := "vulnerability", id := vid, title := v.Title.getD vid,
              severity := sv, package := some (v.PkgName.getD "N/A"),
              installed := some (v.InstalledVersion.getD "N/A"),
              fixed := some (v.FixedVersion.getD "No fix available"),
              description := v.Description.getD "", references := some v.References,
              published := some (v.PublishedDate.getD ""),
              layer := some (v.LayerDiffID.getD "N/A") }, ?_, ?_⟩
    · rw [extractVuln, h1, h2]
      rfl
    · rw [h3]
      rfl
  · refine ⟨{ type := "misconfiguration", id := mid, title := mc.Title.getD mid,
              severity := sm, package := none, installed := none, fixed := none,
              description := mc.Message.getD "", references := some mc.References,
              published := none, layer := none }, ?_, ?_⟩
    · rw [extractMisconf, h4, h5]
      rfl
    · rw [h6]
      rfl

/-- Concrete vulnerability record (no `Title`) for the C8 witness. -/
def vulnNoTitle : VulnRec :=
  ⟨some "CVE-2024-0001", none, some "LOW", none, none, none, none, [], none, none⟩

/-- Concrete misconfiguration record (no `Title`) for the C8 witness. -/
def misconfNoTitle : MisconfRec :=
  ⟨some "AVD-KSV-0001", none, some "MEDIUM", some "container runs as root", []⟩

theorem c8_title_defaults_to_id_witness :
    vulnNoTitle.VulnerabilityID = some "CVE-2024-0001" ∧ vulnNoTitle.Severity = some "LOW" ∧
    vulnNoTitle.Title = none ∧ misconfNoTitle.ID = some "AVD-KSV-0001" ∧
    misconfNoTitle.Severity = some "MEDIUM" ∧ misconfNoTitle.Title = none ∧
    ((∃ f, extractVuln vulnNoTitle = .ok f ∧ f.title = "CVE-2024-0001") ∧
     (∃ g, extractMisconf misconfNoTitle = .ok g ∧ g.title = "AVD-KSV-0001")) :=
  ⟨rfl, rfl, rfl, rfl, rfl, rfl,
    c8_title_defaults_to_id vulnNoTitle misconfNoTitle "CVE-2024-0001" "AVD-KSV-0001"
      "LOW" "MEDIUM" rfl rfl rfl rfl rfl rfl⟩

theorem extractVuln_ok_severity (v : VulnRec) (f : Finding)
    (h : extractVuln v = .ok f) : v.Severity ≠ none := by
  intro hn
  cases hv : v.VulnerabilityID <;> rw [extractVuln, hv, hn] at h <;> exact Except.noConfusion h

theorem extractMisconf_ok_severity (m : MisconfRec) (f : Finding)
    (h : extractMisconf m = .ok f) : m.Severity ≠ none := by
  intro hn
  cases hm : m.ID <;> rw [extractMisconf, hm, hn] at h <;> exact Except.noConfusion h

theorem extractSecret_ok_severity (s : SecretRec) (f : Finding)
    (h : extractSecret s = .ok f) : s.Severity ≠ none := by
  intro hn
  cases hs : s.RuleID <;> rw [extractSecret, hs, hn] at h <;> exact Except.noConfusion h

theorem extractVulns_ok_mem (vs : List VulnRec) (l : List Finding)
    (h : extractVulns vs = .ok l) (v : VulnRec) (hv : v ∈ vs) :
    ∃ f, extractVuln v = .ok f := by
  induction vs generalizing l with
  | nil => cases hv
  | cons a rest ih =>
    rw [extractVulns] at h
    cases ha : extractVuln a with
    | error e => rw [ha] at h; exact Except.noConfusion h
    | ok f =>
      rw [ha] at h
      cases hrest : extractVulns rest with
      | error e => rw [hrest] at h; exact Except.noConfusion h
      | ok fs =>
        cases List.mem_cons.mp hv with
        | inl heq => exact ⟨f, heq ▸ ha⟩
        | inr hmem => exact ih fs hrest hmem

theorem extractMisconfs_ok_mem (ms : List MisconfRec) (l : List Finding)
    (h : extractMisconfs ms = .ok l) (m : MisconfRec) (hm : m ∈ ms) :
    ∃ f, extractMisconf m = .ok f := by
  induction ms generalizing l with
  | nil => cases hm
  | cons a rest ih =>
    rw [extractMisconfs] at h
    cases ha : extractMisconf a with
    | error e => rw [ha] at h; exact Except.noConfusion h
    | ok f =>
      rw [ha] at h
      cases hrest : extractMisconfs rest with
      | error e => rw [hrest] at h; exact Except.noConfusion h
      | ok fs =>
        cases List.mem_cons.mp hm with
        | inl heq => exact ⟨f, heq ▸ ha⟩
        | inr hmem => exact ih fs hrest hmem

theorem extractSecrets_ok_mem (ss : List SecretRec) (l : List Finding)
    (h : extractSecrets ss = .ok l) (s : SecretRec) (hs : s ∈ ss) :
    ∃ f, extractSecret s = .ok f := by
  induction ss generalizing l with
  | nil => cases hs
  | cons a rest ih =>
    rw [extractSecrets] at h
    cases ha : extractSecret a with
    | error e => rw [ha] at h; exact Except.noConfusion h
    | ok f =>
      rw [ha] at h
      cases hrest : extractSecrets rest with
      | error e => rw [hrest] at h; exact Except.noConfusion h
      | ok fs =>
        cases List.mem_cons.mp hs with
        | inl heq => exact ⟨f, heq ▸ ha⟩
        | inr hmem => exact ih fs hrest hmem

theorem extract_findings_ok_block (rs : List ResultBlock) (l : List Finding)
    (h : extract_findings rs = .ok l) (r : ResultBlock) (hr : r ∈ rs) :
    ∃ lb, extractBlock r = .ok lb := by
  induction rs generalizing l with
  | nil => cases hr
  | cons a rest ih =>
    rw [extract_findings] at h
    cases ha : extractBlock a with
    | error e => rw [ha] at h; exact Except.noConfusion h
    | ok fs =>
      rw [ha] at h
      cases hrest : extract_findings rest with
      | error e => rw [hrest] at h; exact Except.noConfusion h
      | ok gs =>
        cases List.mem_cons.mp hr with
        | inl heq => exact ⟨fs, heq ▸ ha⟩
        | inr hmem => exact ih gs hrest hmem

theorem extractBlock_ok_parts (r : ResultBlock) (lb : List Finding)
    (h : extractBlock r = .ok lb) :
    (∃ lv, extractVulns r.Vulnerabilities = .ok lv) ∧
    (∃ lm, extractMisconfs r.Misconfigurations = .ok lm) ∧
    (∃ ls, extractSecrets r.Secrets = .ok ls) := by
  rw [extractBlock] at h
  cases hv : extractVulns r.Vulnerabilities with
  | error e => rw [hv] at h; exact Except.noConfusion h
  | ok lv =>
    rw [hv] at h
    cases hm : extractMisconfs r.Misconfigurations with
    | error e => rw [hm] at h; exact Except.noConfusion h
    | ok lm =>
      rw [hm] at h
      cases hs : extractSecrets r.Secrets with
      | error e => rw [hs] at h; exact Except.noConfusion h
      | ok ls => exact ⟨⟨lv, rfl⟩, ⟨lm, rfl⟩, ⟨ls, rfl⟩⟩

/-- Claim C10: extraction aborts with a key-lookup error whenever any
vulnerability, misconfiguration, or secret record of the corpus lacks its
`Severity` field — `Severity` presence is a hard precondition of the whole
extraction pass. -/
theorem c10_severity_required (rs : List ResultBlock)
    (h : ∃ r ∈ rs,
      (∃ v ∈ r.Vulnerabilities, v.Severity = none) ∨
      (∃ m ∈ r.Misconfigurations, m.Severity = none) ∨
      (∃ s ∈ r.Secrets, s.Severity = none)) :
    ∃ e, extract_findings rs = .error e := by
  cases hres : extract_findings rs with
  | error e => exact ⟨e, rfl⟩
  | ok l =>
    exfalso
    obtain ⟨r, hr, hcase⟩ := h
    obtain ⟨lb, hlb⟩ := extract_findings_ok_block rs l hres r hr
    obtain ⟨⟨lv, hlv⟩, ⟨lm, hlm⟩, ⟨ls, hls⟩⟩ := extractBlock_ok_parts r lb hlb
    rcases hcase with ⟨v, hv, hsev⟩ | ⟨m, hm, hsev⟩ | ⟨s, hs, hsev⟩
    · obtain ⟨f, hf⟩ := extractVulns_ok_mem r.Vulnerabilities lv hlv v hv
      exact extractVuln_ok_severity v f hf hsev
    · obtain ⟨f, hf⟩ := extractMisconfs_ok_mem r.Misconfigurations lm hlm m hm
      exact extractMisconf_ok_severity m f hf hsev
    · obtain ⟨f, hf⟩ := extractSecrets_ok_mem r.Secrets ls hls s hs
      exact extractSecret_ok_severity s f hf hsev

/-- Concrete block whose one secret record lacks `Severity`, for the C10
witness. -/
def blockNoSeverity : ResultBlock :=
  ⟨[], [], [⟨some "generic-rule", none, none, some "token=abc"⟩]⟩

theorem c10_severity_required_witness :
    (∃ r ∈ [blockNoSeverity],
      (∃ v ∈ r.Vulnerabilities, v.Severity = none) ∨
      (∃ m ∈ r.Misconfigurations, m.Severity = none) ∨
      (∃ s ∈ r.Secrets, s.Severity = none)) ∧
    (∃ e, extract_findings [blockNoSeverity] = .error e) :=
  ⟨by decide, c10_severity_required [blockNoSeverity] (by decide)⟩

/-- Concrete CRITICAL vulnerability finding whose title holds the keyword
`password`, for the mapper claims. -/
def fPwd : Finding :=
  ⟨"vulnerability", "CVE-2025-0001", "Hardcoded password in image", "CRITICAL",
    some "openssl", some "1.0.2", some "1.0.3", "", some [], some "", some "N/A"⟩

/-- The `IA-5` catalog entry, for the mapper claims. -/
def ia5 : NistControl :=
  ⟨"Authenticator Management", "Manage system authenticators",
    ["password", "credential", "secret", "key"], "HIGH"⟩

/-- The `SC-28` catalog entry, for the mapper claims. -/
def sc28 : NistControl :=
  ⟨"Protection of Information at Rest", "Encrypt sensitive data at rest",
    ["crypto", "ssl", "tls", "cipher", "insecure"], "HIGH"⟩

/-- Claim C1 (code bug, evaluated at the failing input): the finding `fPwd`
satisfies the spec's match relation for the catalog control `IA-5`, yet the
assembled output consists of a single control carrying the finding's own id
`CVE-2025-0001` — no code consults `NIST_MAPPING` or `SEVERITY_ORDER`, so
the claimed match relation governs nothing in the program. -/
theorem c1_match_relation_never_computed :
    NIST_MAPPING.lookup "IA-5" = some ia5 ∧
    specMatches fPwd ia5 = true ∧
    Except.map (List.map HdfControl.id)
      (export_mitre_saf_hdf NIST_MAPPING [] "t0" [fPwd]) = .ok ["CVE-2025-0001"] :=
  ⟨rfl, by decide, rfl⟩

/-- Concrete LOW vulnerability finding whose id collides with the catalog
control id `SC-28`. -/
def fSC28 : Finding :=
  ⟨"vulnerability", "SC-28", "stale build note", "LOW",
    some "busybox", some "1.36.0", some "1.36.1", "", some [], some "", some "N/A"⟩

/-- Claim C2 (code bug, evaluated at the failing input): catalog control
`SC-28` has zero matching findings under the spec's match relation, yet a
control with id `SC-28` appears in the assembled output, because the code
emits one control per finding keyed by the finding's id with no catalog
filtering at all. -/
theorem c2_unmatched_control_appears :
    NIST_MAPPING.lookup "SC-28" = some sc28 ∧
    specMatches fSC28 sc28 = false ∧
    Except.map (List.map HdfControl.id)
      (export_mitre_saf_hdf NIST_MAPPING [] "t0" [fSC28]) = .ok ["SC-28"] :=
  ⟨rfl, by decide, rfl⟩

/-- Normalized form of `secretAWS`. -/
def sfAWS : Finding :=
  ⟨"secret", "SECRET-AWS-001", "SECRET-AWS-001", "HIGH",
    none, none, none, "AKIAEXAMPLE", none, none, none⟩

/-- Normalized form of `misconfNoTitle`. -/
def mfNoTitle : Finding :=
  ⟨"misconfiguration", "AVD-KSV-0001", "AVD-KSV-0001", "MEDIUM",
    none, none, none, "container runs as root", some [], none, none⟩

/-- Claim C3 (code bug, evaluated at the failing input): for a vulnerability
finding the result record's code-description is indeed
`<package> <installedVersion> → <fixedVersion>`, but for secret and
misconfiguration findings the assembler raises `KeyError: package` instead
of rendering their description field, because the f-string indexes
`f["package"]` unconditionally. -/
theorem c3_code_desc_keyerror :
    Except.map (fun c => c.results.map HdfResult.code_desc) (buildControl "t0" fPwd) =
      .ok ["openssl 1.0.2 → 1.0.3"] ∧
    extractSecret secretAWS = .ok sfAWS ∧
    buildControl "t0" sfAWS = .error "package" ∧
    extractMisconf misconfNoTitle = .ok mfNoTitle ∧
    buildControl "t0" mfNoTitle = .error "package" :=
  ⟨rfl, rfl, rfl, rfl, rfl⟩

/-- Counterexample for claim C4 as stated: on a list holding one secret
finding the assembler produces no control sequence at all (it raises
`KeyError: package`), so it does not append one control per finding for
every list of findings. -/
theorem c4_counterexample_secret_finding :
    export_mitre_saf_hdf NIST_MAPPING [] "t0" [sfAWS] = .error "package" ∧
    ∀ cs, export_mitre_saf_hdf NIST_MAPPING [] "t0" [sfAWS] ≠ .ok cs := by
  have h : export_mitre_saf_hdf NIST_MAPPING [] "t0" [sfAWS] = .error "package" := rfl
  exact ⟨h, fun cs hcs => Except.noConfusion (h.symm.trans hcs)⟩

theorem buildControl_ok (now : String) (f : Finding) (p i x : String)
    (hp : f.package = some p) (hi : f.installed = some i) (hx : f.fixed = some x) :
    buildControl now f = .ok { id := f.id, title := f.title, desc := f.description,
                               impact := impactOf f.severity, severity := f.severity,
                               results := [{ status := "failed",
                                             code_desc := p ++ " " ++ i ++ " → " ++ x,
                                             start_time := now }] } := by
  unfold buildControl
  rw [hp, hi, hx]
  rfl

theorem buildControls_ok (now : String) (fs : List Finding)
    (h : ∀ f ∈ fs, f.package.isSome ∧ f.installed.isSome ∧ f.fixed.isSome) :
    ∃ cs, buildControls now fs = .ok cs ∧ cs.map HdfControl.id = fs.map Finding.id := by
  induction fs with
  | nil => exact ⟨[], rfl, rfl⟩
  | cons f fs ih =>
    obtain ⟨hp', hi', hx'⟩ := h f (List.mem_cons_self f fs)
    obtain ⟨p, hp⟩ := Option.isSome_iff_exists.mp hp'
    obtain ⟨i, hi⟩ := Option.isSome_iff_exists.mp hi'
    obtain ⟨x, hx⟩ := Option.isSome_iff_exists.mp hx'
    obtain ⟨cs, hcs, hmap⟩ := ih (fun g hg => h g (List.mem_cons_of_mem f hg))
    refine ⟨{ id := f.id, title := f.title, desc := f.description,
              impact := impactOf f.severity, severity := f.severity,
              results := [{ status := "failed",
                            code_desc := p ++ " " ++ i ++ " → " ++ x,
                            start_time := now }] } :: cs, ?_, ?_⟩
    · rw [buildControls, buildControl_ok now f p i x hp hi hx, hcs]
    · simp only [List.map_cons, hmap]

/-- Claim C4 as amended: for every list of findings that all carry the
`package`, `installed` and `fixed` keys (as every vulnerability-type finding
does), the assembler appends exactly one control per finding, in finding
order, with control id equal to the finding's id, and the output is
independent of the catalog argument (`NIST_MAPPING` is never read). -/
theorem c4_one_control_per_finding (cat cat2 : List (String × NistControl))
    (tmpl : List HdfControl) (now : String) (fs : List Finding)
    (h : ∀ f ∈ fs, f.package.isSome ∧ f.installed.isSome ∧ f.fixed.isSome) :
    export_mitre_saf_hdf cat tmpl now fs = export_mitre_saf_hdf cat2 tmpl now fs ∧
    ∃ cs, export_mitre_saf_hdf cat tmpl now fs = .ok (tmpl ++ cs) ∧
      cs.map HdfControl.id = fs.map Finding.id := by
  refine ⟨rfl, ?_⟩
  obtain ⟨cs, hcs, hmap⟩ := buildControls_ok now fs h
  refine ⟨cs, ?_, hmap⟩
  unfold export_mitre_saf_hdf
  rw [hcs]

theorem c4_one_control_per_finding_witness :
    (∀ f ∈ [fPwd], f.package.isSome ∧ f.installed.isSome ∧ f.fixed.isSome) ∧
    (export_mitre_saf_hdf NIST_MAPPING [] "t0" [fPwd] =
       export_mitre_saf_hdf [] [] "t0" [fPwd] ∧
     ∃ cs, export_mitre_saf_hdf NIST_MAPPING [] "t0" [fPwd] = .ok ([] ++ cs) ∧
       cs.map HdfControl.id = [fPwd].map Finding.id) :=
  ⟨by decide, c4_one_control_per_finding NIST_MAPPING [] [] "t0" [fPwd] (by decide)⟩
